import Mathlib

/-!
Shallow embedding of the "Everyday Life Automation" repository
(`simpliefied2.py`, the Smart Life Hub dashboard, and the Morning-Brief
console script) and proofs of the specification claims about it.

File I/O is modelled by explicit file-state values: the reminder backing
file is either absent, present-but-unparseable, or present with a list of
stored records; the expense backing file is either absent or present with
a list of rows.  The JSON / CSV codecs are external library collaborators
and are modelled as faithful (a saved list reads back as itself); the
logic of the repository itself (defaulting, parsing of time strings,
due-reminder computation, aggregate insights, error branches) is
translated directly from the source.
-/

/- ---------------- Python date/time model ----------------

`datetime.datetime.strptime` with the two fixed formats used by the code,
`"%Y-%m-%d %H:%M"` and `"%Y-%m-%d"`.  CPython compiles these formats to a
regular expression: `%Y` is exactly four digits, `%m`/`%d`/`%H`/`%M` are
one or two digit runs whose value must lie in the field's range, a literal
`-`/`:` matches itself, a blank in the format matches one or more
whitespace characters, and any unconverted trailing data is an error.
The resulting tuple is then validated by the `datetime` constructor
(day of month against calendar, including leap years). -/

/-- Calendar date as produced by `datetime.date`. -/
structure PyDate where
  year : Nat
  month : Nat
  day : Nat
deriving DecidableEq

/-- Instant as produced by `datetime.datetime` at minute granularity
(the two parse formats produce zero seconds/microseconds, and comparison
against a finer `now` instant is decided at or before the minute field,
so minute granularity is faithful for every comparison the code makes). -/
structure PyDateTime where
  year : Nat
  month : Nat
  day : Nat
  hour : Nat
  minute : Nat
deriving DecidableEq

/-- Lexicographic order on dates, as Python compares `date` values. -/
def PyDate.le (a b : PyDate) : Bool :=
  decide (a.year < b.year) ||
    (decide (a.year = b.year) &&
      (decide (a.month < b.month) ||
        (decide (a.month = b.month) && decide (a.day ≤ b.day))))

/-- Lexicographic order on instants, as Python compares `datetime` values. -/
def PyDateTime.le (a b : PyDateTime) : Bool :=
  decide (a.year < b.year) ||
    (decide (a.year = b.year) &&
      (decide (a.month < b.month) ||
        (decide (a.month = b.month) &&
          (decide (a.day < b.day) ||
            (decide (a.day = b.day) &&
              (decide (a.hour < b.hour) ||
                (decide (a.hour = b.hour) && decide (a.minute ≤ b.minute))))))))

/-- The `.date()` method of a `datetime`. -/
def PyDateTime.dateOf (t : PyDateTime) : PyDate :=
  ⟨t.year, t.month, t.day⟩

/-- Gregorian leap-year rule used by `datetime`. -/
def isLeapYear (y : Nat) : Bool :=
  decide (y % 4 = 0) && (decide (y % 100 ≠ 0) || decide (y % 400 = 0))

/-- Number of days in a month, as validated by the `datetime` constructor. -/
def daysInMonth (y m : Nat) : Nat :=
  if m = 2 then (if isLeapYear y then 29 else 28)
  else if m = 4 ∨ m = 6 ∨ m = 9 ∨ m = 11 then 30
  else 31

/-- Longest leading run of ASCII digits of a character list, with the rest. -/
def spanDigits : List Char → List Char × List Char
  | [] => ([], [])
  | c :: cs =>
    if c.isDigit then
      let p := spanDigits cs
      (c :: p.1, p.2)
    else ([], c :: cs)

/-- Numeric value of a digit run. -/
def digitsToNat (ds : List Char) : Nat :=
  ds.foldl (fun a c => 10 * a + (c.toNat - 48)) 0

/-- The `%Y` directive: exactly four digits. -/
def parseYear4 (cs : List Char) : Option (Nat × List Char) :=
  let p := spanDigits cs
  if p.1.length = 4 then some (digitsToNat p.1, p.2) else none

/-- A one-or-two digit numeric directive (`%m`, `%d`, `%H`, `%M`) whose
value must lie in `[lo, hi]`. -/
def parseField2 (lo hi : Nat) (cs : List Char) : Option (Nat × List Char) :=
  let p := spanDigits cs
  if p.1.length = 1 ∨ p.1.length = 2 then
    let v := digitsToNat p.1
    if lo ≤ v ∧ v ≤ hi then some (v, p.2) else none
  else none

/-- A literal character of the format. -/
def expectChar (c : Char) : List Char → Option (List Char)
  | [] => none
  | x :: xs => if x = c then some xs else none

/-- A blank in the format: one or more whitespace characters. -/
def expectSpaces : List Char → Option (List Char)
  | [] => none
  | x :: xs =>
    if x.isWhitespace then some (xs.dropWhile Char.isWhitespace) else none

/-- Validation performed by the `datetime` constructor on a parsed tuple. -/
def validYMD (y m d : Nat) : Bool :=
  decide (1 ≤ y) && decide (d ≤ daysInMonth y m)

/-- `datetime.datetime.strptime(s, "%Y-%m-%d %H:%M")`, returning `none`
where CPython raises `ValueError`. -/
def parseDateTime (s : String) : Option PyDateTime := do
  let r0 := s.toList
  let (y, r1) ← parseYear4 r0
  let r2 ← expectChar '-' r1
  let (mo, r3) ← parseField2 1 12 r2
  let r4 ← expectChar '-' r3
  let (d, r5) ← parseField2 1 31 r4
  let r6 ← expectSpaces r5
  let (h, r7) ← parseField2 0 23 r6
  let r8 ← expectChar ':' r7
  let (mi, r9) ← parseField2 0 59 r8
  if r9 = [] ∧ validYMD y mo d then some ⟨y, mo, d, h, mi⟩ else none

/-- `datetime.datetime.strptime(s, "%Y-%m-%d")`, returning the calendar
date (the produced midnight instant is only ever used through `.date()`). -/
def parseDate (s : String) : Option PyDate := do
  let r0 := s.toList
  let (y, r1) ← parseYear4 r0
  let r2 ← expectChar '-' r1
  let (mo, r3) ← parseField2 1 12 r2
  let r4 ← expectChar '-' r3
  let (d, r5) ← parseField2 1 31 r4
  if r5 = [] ∧ validYMD y mo d then some ⟨y, mo, d⟩ else none

/- ---------------- Reminder store ---------------- -/

/-- A record as it sits in the JSON backing file: `completed` may be
absent (`none`), the backward-compatible shape handled by `load`. -/
structure StoredReminder where
  task : String
  time : String
  completed : Option Bool
deriving DecidableEq

/-- A record as returned by `ReminderManager.load`: all three fields
populated. -/
structure Reminder where
  task : String
  time : String
  completed : Bool
deriving DecidableEq

/-- The defaulting performed inside `ReminderManager.load`:
`if "completed" not in task: task["completed"] = False`. -/
def normalizeReminder (r : StoredReminder) : Reminder :=
  ⟨r.task, r.time, r.completed.getD false⟩

/-- A loaded record written back to disk (all fields present). -/
def Reminder.toStored (r : Reminder) : StoredReminder :=
  ⟨r.task, r.time, some r.completed⟩

/-- Python's `str.strip()`: drop leading and trailing whitespace. -/
def pyStrip (s : String) : String :=
  String.mk
    (((s.toList.dropWhile Char.isWhitespace).reverse.dropWhile
      Char.isWhitespace).reverse)

/-- State of the reminder backing file. -/
inductive RFile
  | absent
  | malformed
  | content (tasks : List StoredReminder)
deriving DecidableEq

/-- Error surfaced by `ReminderManager.load`: `json.load` fails on an
existing but unparseable file and nothing in the source catches it. -/
inductive ReminderLoadError
  | malformed
deriving DecidableEq

/-- `ReminderManager.load`: absent file recovers to `[]`
(`except FileNotFoundError: return []`); a malformed file propagates the
parse error; otherwise every record gets `completed` defaulted. -/
def ReminderManager.load : RFile → Except ReminderLoadError (List Reminder)
  | RFile.absent => Except.ok []
  | RFile.malformed => Except.error ReminderLoadError.malformed
  | RFile.content l => Except.ok (l.map normalizeReminder)

/-- `ReminderManager.load` together with the file state after the call:
the file is opened read-only, so the state is returned unchanged (in
particular an absent file is not created). -/
def ReminderManager.loadFS (s : RFile) :
    Except ReminderLoadError (List Reminder) × RFile :=
  (ReminderManager.load s, s)

/-- `ReminderManager.save`: `json.dump` of the given records overwrites
the file. -/
def ReminderManager.save (tasks : List StoredReminder) : RFile :=
  RFile.content tasks

/-- `ReminderManager.add`: load, append
`{task: task_text.strip(), time: date_time, completed: False}`, save.
The records being saved are the loaded (hence normalized) ones plus the
new record; a load failure propagates before anything is written. -/
def ReminderManager.add (s : RFile) (task_text date_time : String) :
    Except ReminderLoadError RFile :=
  (ReminderManager.load s).map fun tasks =>
    ReminderManager.save
      ((tasks ++ [⟨pyStrip task_text, date_time, false⟩]).map Reminder.toStored)

/-- A sequence of `add` calls, each propagating a load failure. -/
def ReminderManager.addAll (s : RFile) :
    List (String × String) → Except ReminderLoadError RFile
  | [] => Except.ok s
  | c :: rest =>
    (ReminderManager.add s c.1 c.2).bind fun s1 =>
      ReminderManager.addAll s1 rest

/-- The loop body of `ReminderManager.check_reminders` over the loaded
records: for every incomplete record, try the date+time format (inner
comparison appends on success); on a parse failure fall back to the
date-only format compared by calendar date; a second failure is swallowed
by `continue`. -/
def dueList (tasks : List Reminder) (now : PyDateTime) : List String :=
  match tasks with
  | [] => []
  | t :: ts =>
    (if !t.completed then
      match parseDateTime t.time with
      | some task_time => if task_time.le now then [t.task] else []
      | none =>
        match parseDate t.time with
        | some task_time =>
          if task_time.le now.dateOf then [t.task] else []
        | none => []
     else []) ++ dueList ts now

/-- `ReminderManager.check_reminders` (the spec's `dueNow`): load, then
collect the task texts of the due, incomplete records in stored order. -/
def ReminderManager.check_reminders (s : RFile) (now : PyDateTime) :
    Except ReminderLoadError (List String) :=
  (ReminderManager.load s).map fun tasks => dueList tasks now

/-- Due-predicate written from the specification's words: the `time`
field parses in the date+time format with parsed instant at or before
`now`, or fails that parse but parses in the date-only format with
calendar date at or before `now`'s calendar date. -/
def isDueSpec (time : String) (now : PyDateTime) : Bool :=
  match parseDateTime time with
  | some dt => dt.le now
  | none =>
    match parseDate time with
    | some d => d.le now.dateOf
    | none => false

/- ---------------- Expense store ---------------- -/

/-- One row of the expense table, columns `Item`, `Amount`, `Date`.
Amounts are modelled as rationals; the source stores Python floats, whose
rounding is not observable in any claimed property. -/
structure Expense where
  Item : String
  Amount : ℚ
  Date : String
deriving DecidableEq

/-- A loaded expense dataframe: column headers plus rows. -/
structure ExpenseDF where
  cols : List String
  rows : List Expense
deriving DecidableEq

/-- State of the expense backing file.  `ExpenseManager.save` always
writes the fixed header `Item,Amount,Date`, so a present file is its row
list. -/
inductive EFile
  | absent
  | present (rows : List Expense)
deriving DecidableEq

/-- A Python value passed as the `amount` argument of
`ExpenseManager.add`: a number or a string. -/
inductive PyVal
  | num (q : ℚ)
  | str (s : String)
deriving DecidableEq

/-- Underscore placement check of Python numeric literals accepted by
`float`: every underscore must sit between two digits. -/
def undOk : List Char → Bool
  | [] => true
  | '_' :: _ => false
  | c :: '_' :: rest =>
    c.isDigit &&
      (match rest with
       | r :: _ => r.isDigit
       | [] => false) &&
      undOk rest
  | _ :: rest => undOk rest

/-- Value of an integer-digit part and a fraction-digit part. -/
def mantissaOf (ip fp : List Char) : ℚ :=
  (digitsToNat ip : ℚ) + (digitsToNat fp : ℚ) / (10 : ℚ) ^ fp.length

/-- Optional exponent suffix of a Python float literal applied to a
mantissa; anything left over after it is a parse failure. -/
def parseExpSuffix (m : ℚ) : List Char → Option ℚ
  | [] => some m
  | c :: r1 =>
    if c = 'e' ∨ c = 'E' then
      let p : Int × List Char :=
        match r1 with
        | '+' :: t => (1, t)
        | '-' :: t => (-1, t)
        | t => (1, t)
      let d := spanDigits p.2
      if d.1.isEmpty ∨ ¬d.2.isEmpty then none
      else some (m * (10 : ℚ) ^ (p.1 * (digitsToNat d.1 : Int)))
    else none

/-- Unsigned finite Python float literal: `digits`, `digits.`,
`digits.digits` or `.digits`, then an optional exponent. -/
def parseUnsignedFloat (cs : List Char) : Option ℚ :=
  let p := spanDigits cs
  match p.2 with
  | '.' :: r2 =>
    let f := spanDigits r2
    if p.1.isEmpty ∧ f.1.isEmpty then none
    else parseExpSuffix (mantissaOf p.1 f.1) f.2
  | r1 =>
    if p.1.isEmpty then none else parseExpSuffix (digitsToNat p.1 : ℚ) r1

/-- `float(s)` on a string: strip surrounding whitespace, check
underscore placement and drop underscores, take an optional sign, then a
finite literal or one of the non-finite spellings.  Returns `none`
exactly where CPython raises `ValueError`.  The non-finite values
`inf`/`infinity`/`nan` are accepted by `float` but lie outside `ℚ`; they
are represented by `0`, a value no theorem depends on. -/
def parsePyFloat (s : String) : Option ℚ :=
  let cs := ((s.toList.dropWhile Char.isWhitespace).reverse.dropWhile
    Char.isWhitespace).reverse
  if undOk cs then
    let cs1 := cs.filter (fun c => c ≠ '_')
    let p : ℚ × List Char :=
      match cs1 with
      | '+' :: t => (1, t)
      | '-' :: t => (-1, t)
      | t => (1, t)
    let low := p.2.map Char.toLower
    if low = "inf".toList ∨ low = "infinity".toList ∨ low = "nan".toList then
      some 0
    else (parseUnsignedFloat p.2).map (fun q => p.1 * q)
  else none

/-- `float(amount)`: a number converts to itself, a string is parsed. -/
def pyFloat : PyVal → Option ℚ
  | PyVal.num q => some q
  | PyVal.str s => parsePyFloat s

/-- Error surfaced by `ExpenseManager.add` when `float(amount)` fails
(the spec's `InvalidAmount`). -/
inductive ExpenseAddError
  | invalidAmount
deriving DecidableEq

/-- `ExpenseManager.load`: `pd.read_csv`, recovering an absent file to an
empty dataframe with columns `Item`, `Amount`, `Date`. -/
def ExpenseManager.load : EFile → ExpenseDF
  | EFile.absent => ⟨["Item", "Amount", "Date"], []⟩
  | EFile.present rows => ⟨["Item", "Amount", "Date"], rows⟩

/-- `ExpenseManager.load` together with the file state after the call:
the file is only read, so the state is unchanged (an absent file is not
created). -/
def ExpenseManager.loadFS (s : EFile) : ExpenseDF × EFile :=
  (ExpenseManager.load s, s)

/-- `ExpenseManager.save`: `to_csv` overwrites the file with the rows. -/
def ExpenseManager.save (rows : List Expense) : EFile :=
  EFile.present rows

/-- `ExpenseManager.add`: load, build the new row (where `float(amount)`
raises before anything is written), concat, save.  The returned pair is
the call outcome and the backing-file state after the call. -/
def ExpenseManager.add (s : EFile) (item : String) (amount : PyVal)
    (date_str : String) : Except ExpenseAddError Unit × EFile :=
  let df := ExpenseManager.load s
  match pyFloat amount with
  | none => (Except.error ExpenseAddError.invalidAmount, s)
  | some q =>
    (Except.ok (), ExpenseManager.save (df.rows ++ [⟨item, q, date_str⟩]))

/-- `df["Amount"].idxmax()` then `df.loc`: the first row holding the
maximum amount, computed as a scan that replaces the best row only on a
strictly greater amount. -/
def idxmaxRow (m : Expense) (rows : List Expense) : Expense :=
  rows.foldl (fun acc x => if acc.Amount < x.Amount then x else acc) m

/-- `df["Amount"].idxmin()` then `df.loc`: the first row holding the
minimum amount. -/
def idxminRow (m : Expense) (rows : List Expense) : Expense :=
  rows.foldl (fun acc x => if x.Amount < acc.Amount then x else acc) m

/-- Round a nonnegative rational number of hundredths to an integer,
halves to even, as Python's fixed-point float formatting does. -/
def centsOf (q : ℚ) : Nat :=
  let c : ℚ := q * 100
  let cn := c.num.toNat
  let cd := c.den
  let n := cn / cd
  let r := cn % cd
  if 2 * r < cd then n
  else if cd < 2 * r then n + 1
  else if n % 2 = 0 then n else n + 1

/-- Fixed-point rendering of a nonnegative rational with two decimals. -/
def fmt2nonneg (q : ℚ) : String :=
  let c := centsOf q
  toString (c / 100) ++ "." ++ (if c % 100 < 10 then "0" else "") ++
    toString (c % 100)

/-- Python's `f"{x:.2f}"`. -/
def fmt2 (q : ℚ) : String :=
  if q < 0 then "-" ++ fmt2nonneg (-q) else fmt2nonneg q

/-- `ExpenseManager.get_spending_insights`: one no-data line on an empty
table, otherwise total, mean, count, first maximum row and first minimum
row, in this order, rendered as in the source. -/
def ExpenseManager.get_spending_insights (s : EFile) : List String :=
  let df := ExpenseManager.load s
  match df.rows with
  | [] => ["No expenses yet to analyze"]
  | r :: rs =>
    let total := ((r :: rs).map Expense.Amount).sum
    let avg := total / ((r :: rs).length : ℚ)
    let item_count := (r :: rs).length
    let max_item := idxmaxRow r rs
    let min_item := idxminRow r rs
    ["💰 Total spent: ₹" ++ fmt2 total,
     "📊 Average per expense: ₹" ++ fmt2 avg,
     "📝 Total expenses: " ++ toString item_count,
     "🔥 Most expensive: " ++ max_item.Item ++ " - ₹" ++ fmt2 max_item.Amount,
     "💸 Cheapest: " ++ min_item.Item ++ " - ₹" ++ fmt2 min_item.Amount]

/-- Specification-side maximum row: the first row whose amount is at
least every row's amount (the claim's tie rule: first occurrence). -/
def specMaxRow (rows : List Expense) : Option Expense :=
  rows.find? fun x => rows.all fun y => decide (y.Amount ≤ x.Amount)

/-- Specification-side minimum row: the first row whose amount is at
most every row's amount. -/
def specMinRow (rows : List Expense) : Option Expense :=
  rows.find? fun x => rows.all fun y => decide (x.Amount ≤ y.Amount)

/-- Generic scan shared by `idxmaxRow` and `idxminRow`: keep the row
with the larger key, preferring the earlier row on ties. -/
def foldBest (key : Expense → ℚ) (m : Expense) (rows : List Expense) :
    Expense :=
  rows.foldl (fun acc x => if key acc < key x then x else acc) m

/- ---------------- Weather scripts ---------------- -/

/-- `str.title()`: uppercase a letter that starts a word, lowercase the
rest (cased-character detail abstracted to alphabetic). -/
def pyTitleGo : Bool → List Char → List Char
  | _, [] => []
  | prevAlpha, c :: cs =>
    if c.isAlpha then
      (if prevAlpha then c.toLower else c.toUpper) :: pyTitleGo true cs
    else c :: pyTitleGo false cs

/-- `s.title()` on a string. -/
def pyTitle (s : String) : String :=
  String.mk (pyTitleGo false s.toList)

/-- A parsed weather-provider JSON response.  `codIs200` is the outcome
of the dynamically typed test `response.get("cod") == 200` (the provider
returns the integer `200` on success and a non-`200` value otherwise);
the remaining fields carry the payload read only inside the success
branch. -/
structure OwmResponse where
  codIs200 : Bool
  temp : ℚ
  humidity : ℚ
  description : String
  main : String
deriving DecidableEq

/-- Output events printed by the weather section of the Morning-Brief
script. -/
inductive BriefLine
  | cityNotFound
  | temperatureLine (t : ℚ)
  | conditionLine (condition emoji : String)
deriving DecidableEq

/-- An uncaught Python runtime error terminating a script. -/
inductive PyRunError
  | nameError (var : String)
deriving DecidableEq

/-- The `weather_emojis` dictionary of the Morning-Brief script. -/
def weatherEmojis : List (String × String) :=
  [("Few Clouds", "🌤️"), ("Clear", "☀️"), ("Clear Sky", "☀️"),
   ("Clouds", "☁️"), ("Rain", "🌧️"), ("Drizzle", "🌦️"),
   ("Thunderstorm", "⛈️"), ("Snow", "❄️"), ("Mist", "🌫️"),
   ("Fog", "🌁"), ("Haze", "🌫️"), ("Smog", "💨")]

/-- The weather section of the Morning-Brief script, from the `cod`
check onwards: on a non-200 response it prints the fallback line, but
`condition` and `temperature` are assigned only in the success branch,
so the later unconditional `weather_emojis.get(condition, "🌍")` and
`print("Temperature:", ...)` raise `NameError` on the fallback path.
Returns the lines printed before termination and the script outcome. -/
def morningBriefWeather (r : OwmResponse) :
    List BriefLine × Except PyRunError Unit :=
  let printed := if !r.codIs200 then [BriefLine.cityNotFound] else []
  let conditionVar : Option String :=
    if r.codIs200 then some (pyTitle r.description) else none
  let temperatureVar : Option ℚ := if r.codIs200 then some r.temp else none
  match conditionVar with
  | none => (printed, Except.error (PyRunError.nameError "condition"))
  | some condition =>
    let emoji := (weatherEmojis.lookup condition).getD "🌍"
    match temperatureVar with
    | none => (printed, Except.error (PyRunError.nameError "temperature"))
    | some temperature =>
      (printed ++ [BriefLine.temperatureLine temperature,
                   BriefLine.conditionLine condition emoji],
       Except.ok ())

/-- A UI event emitted by the dashboard's weather section. -/
inductive UiEvent
  | metricTemperature (t : ℚ)
  | metricHumidity (h : ℚ)
  | writeCondition (c : String)
  | errorMsg (s : String)
deriving DecidableEq

/-- The weather half of `show_weather_news` in the dashboard: nothing
happens without an API key (the button guard short-circuits); a fetch
that raises is caught by the bare `except` with a fallback error
message; a non-200 response shows "City not found"; a 200 response
shows the three metrics.  Total: no exception escapes. -/
def show_weather_news_weather_part (apiKey : Option String)
    (fetch : Except Unit OwmResponse) : List UiEvent :=
  match apiKey with
  | none => []
  | some _ =>
    match fetch with
    | Except.error _ => [UiEvent.errorMsg "Weather service unavailable"]
    | Except.ok r =>
      if r.codIs200 then
        [UiEvent.metricTemperature r.temp, UiEvent.metricHumidity r.humidity,
         UiEvent.writeCondition (pyTitle r.description)]
      else [UiEvent.errorMsg "City not found"]

/- ---------------- Proofs ---------------- -/

section Proofs

attribute [local semireducible] Rat.add Rat.mul Rat.sub Rat.inv

theorem normalize_toStored (r : Reminder) :
    normalizeReminder r.toStored = r :=
  rfl

theorem map_normalize_toStored (x : List Reminder) :
    (x.map Reminder.toStored).map normalizeReminder = x := by
  induction x with
  | nil => rfl
  | cons r t ih =>
    simp only [List.map_cons]
    rw [normalize_toStored, ih]

theorem dueList_append (xs ys : List Reminder) (now : PyDateTime) :
    dueList (xs ++ ys) now = dueList xs now ++ dueList ys now := by
  induction xs with
  | nil => rfl
  | cons t ts ih =>
    show _ ++ dueList (ts ++ ys) now = (_ ++ dueList ts now) ++ _
    rw [ih, List.append_assoc]

theorem dueList_eq_filter_map (ts : List Reminder) (now : PyDateTime) :
    dueList ts now =
      (ts.filter fun t => !t.completed && isDueSpec t.time now).map
        Reminder.task := by
  induction ts with
  | nil => rfl
  | cons t ts ih =>
    show (if !t.completed then _ else _) ++ dueList ts now = _
    rw [List.filter_cons, ih]
    cases hc : t.completed with
    | true => simp [hc]
    | false =>
      simp only [hc, Bool.not_false, if_true, Bool.true_and]
      unfold isDueSpec
      cases hdt : parseDateTime t.time with
      | some dt => cases hle : dt.le now <;> simp [hle]
      | none =>
        cases hd : parseDate t.time with
        | some d => cases hle : d.le now.dateOf <;> simp [hle]
        | none => simp

/-- Claim C1: for every stored list of reminders and every instant,
`check_reminders` (the spec's `dueNow`) returns exactly the task texts,
in stored order, of the incomplete reminders whose `time` parses in the
date+time format with parsed instant at or before the instant, or fails
that parse but parses in the date-only format with calendar date at or
before the instant's calendar date; completed reminders are never
included. -/
theorem check_reminders_matches_due_spec (l : List StoredReminder)
    (now : PyDateTime) :
    ReminderManager.check_reminders (RFile.content l) now =
      Except.ok
        (((l.map normalizeReminder).filter
            (fun t => !t.completed && isDueSpec t.time now)).map
          Reminder.task) := by
  show Except.ok (dueList (l.map normalizeReminder) now) = _
  rw [dueList_eq_filter_map]

/-- Claim C3: saving any sequence of valid reminder records and loading
it back yields a field-for-field equal sequence, with `completed`
defaulted to false for any record that omitted the field. -/
theorem reminder_save_load_roundtrip (ts : List StoredReminder) :
    ReminderManager.load (ReminderManager.save ts) =
      Except.ok
        (ts.map fun r => Reminder.mk r.task r.time (r.completed.getD false)) :=
  rfl

theorem reminder_add_ok (s : RFile) (prior : List Reminder)
    (task_text date_time : String)
    (h : ReminderManager.load s = Except.ok prior) :
    ReminderManager.add s task_text date_time =
      Except.ok
        (ReminderManager.save
          ((prior ++ [Reminder.mk (pyStrip task_text) date_time false]).map
            Reminder.toStored)) := by
  unfold ReminderManager.add
  rw [h]
  rfl

/-- Claim C4: `add` is append-only and order-preserving.  From any store
state whose load yields `prior`, a sequence of `add` calls succeeds and
a subsequent load returns `prior` followed by one new record per call,
in call order, each holding the trimmed task, the given time text and
`completed = false`. -/
theorem reminder_add_append_only (s : RFile) (prior : List Reminder)
    (calls : List (String × String))
    (h : ReminderManager.load s = Except.ok prior) :
    (ReminderManager.addAll s calls).bind ReminderManager.load =
      Except.ok
        (prior ++ calls.map fun c => Reminder.mk (pyStrip c.1) c.2 false) := by
  induction calls generalizing s prior with
  | nil =>
    show ReminderManager.load s = _
    rw [h, List.map_nil, List.append_nil]
  | cons c rest ih =>
    have hadd := reminder_add_ok s prior c.1 c.2 h
    have hload :
        ReminderManager.load
          (ReminderManager.save
            ((prior ++ [Reminder.mk (pyStrip c.1) c.2 false]).map
              Reminder.toStored)) =
          Except.ok (prior ++ [Reminder.mk (pyStrip c.1) c.2 false]) := by
      show ReminderManager.load (ReminderManager.save _) = _
      rw [show (ReminderManager.load (ReminderManager.save
        ((prior ++ [Reminder.mk (pyStrip c.1) c.2 false]).map Reminder.toStored))) =
        Except.ok (((prior ++ [Reminder.mk (pyStrip c.1) c.2 false]).map
          Reminder.toStored).map normalizeReminder) from rfl]
      rw [map_normalize_toStored]
    show ((ReminderManager.add s c.1 c.2).bind
      fun s1 => ReminderManager.addAll s1 rest).bind ReminderManager.load = _
    rw [hadd]
    show ((ReminderManager.addAll _ rest).bind ReminderManager.load) = _
    rw [ih _ _ hload, List.map_cons, List.append_assoc]
    rfl

/-- Witness for claim C4 at a concrete store state and two `add` calls. -/
theorem reminder_add_append_only_witness :
    (ReminderManager.addAll
        (RFile.content [StoredReminder.mk "a" "2024-01-01" (some true)])
        [("  pay rent ", "2024-07-01 09:00"), ("call mom", "2024-07-02")]).bind
      ReminderManager.load =
      Except.ok
        [Reminder.mk "a" "2024-01-01" true,
         Reminder.mk "pay rent" "2024-07-01 09:00" false,
         Reminder.mk "call mom" "2024-07-02" false] := by
  have h := reminder_add_append_only
    (RFile.content [StoredReminder.mk "a" "2024-01-01" (some true)])
    [Reminder.mk "a" "2024-01-01" true]
    [("  pay rent ", "2024-07-01 09:00"), ("call mom", "2024-07-02")] rfl
  rw [h]
  rfl

/-- Claim C6: `ReminderManager.load` fails exactly on a present but
unparseable backing file (the `Malformed` error, propagated to the
caller), and on a present well-formed file it returns the stored
sequence, normalized, without error. -/
theorem reminder_load_error_iff_malformed (s : RFile) :
    ((∃ e, ReminderManager.load s = Except.error e) ↔ s = RFile.malformed) ∧
    ∀ l, s = RFile.content l →
      ReminderManager.load s = Except.ok (l.map normalizeReminder) := by
  cases s with
  | absent => simp [ReminderManager.load]
  | malformed =>
    exact ⟨⟨fun _ => rfl, fun _ => ⟨ReminderLoadError.malformed, rfl⟩⟩,
      fun l hl => by cases hl⟩
  | content l => simp [ReminderManager.load]

/-- Witness for claim C6: a malformed file errors, a well-formed one
loads. -/
theorem reminder_load_error_iff_malformed_witness :
    (∃ e, ReminderManager.load RFile.malformed = Except.error e) ∧
    ReminderManager.load (RFile.content [StoredReminder.mk "a" "t" none]) =
      Except.ok [Reminder.mk "a" "t" false] :=
  ⟨(reminder_load_error_iff_malformed RFile.malformed).1.mpr rfl,
   (reminder_load_error_iff_malformed
      (RFile.content [StoredReminder.mk "a" "t" none])).2 _ rfl⟩

/-- Claim C7: a stored reminder whose time string matches neither
supported format never causes an error: `check_reminders` on a store
containing it returns exactly what it returns with the record removed,
so the record is silently excluded. -/
theorem due_check_skips_unparseable_time (pre post : List StoredReminder)
    (r : StoredReminder) (now : PyDateTime)
    (h1 : parseDateTime r.time = none) (h2 : parseDate r.time = none) :
    ReminderManager.check_reminders (RFile.content (pre ++ r :: post)) now =
      ReminderManager.check_reminders (RFile.content (pre ++ post)) now := by
  show Except.ok (dueList ((pre ++ r :: post).map normalizeReminder) now) =
    Except.ok (dueList ((pre ++ post).map normalizeReminder) now)
  rw [List.map_append, List.map_append, List.map_cons, dueList_append,
    dueList_append]
  have hmid : dueList (normalizeReminder r :: post.map normalizeReminder) now =
      dueList (post.map normalizeReminder) now := by
    show (if !(normalizeReminder r).completed then _ else _) ++ _ = _
    have ht : (normalizeReminder r).time = r.time := rfl
    cases hc : (normalizeReminder r).completed with
    | true => simp
    | false => simp [ht, h1, h2]
  rw [hmid]

/-- Witness for claim C7: a concrete unparseable reminder is excluded. -/
theorem due_check_skips_unparseable_time_witness :
    ReminderManager.check_reminders
        (RFile.content [StoredReminder.mk "task" "not-a-date" (some false)])
        (PyDateTime.mk 2024 6 1 0 0) =
      ReminderManager.check_reminders (RFile.content [])
        (PyDateTime.mk 2024 6 1 0 0) :=
  due_check_skips_unparseable_time [] []
    (StoredReminder.mk "task" "not-a-date" (some false))
    (PyDateTime.mk 2024 6 1 0 0) (by decide) (by decide)

/-- Claim C8: loading either store when the backing file is absent
returns an empty result (empty reminder sequence; empty expense table
with columns Item, Amount, Date), leaves the file state unchanged (the
file is not created), surfaces no error, and repeated calls return the
same empty result. -/
theorem load_absent_empty_idempotent_no_create :
    ReminderManager.loadFS RFile.absent = (Except.ok [], RFile.absent) ∧
    ExpenseManager.loadFS EFile.absent =
      (ExpenseDF.mk ["Item", "Amount", "Date"] [], EFile.absent) ∧
    ReminderManager.loadFS (ReminderManager.loadFS RFile.absent).2 =
      ReminderManager.loadFS RFile.absent ∧
    ExpenseManager.loadFS (ExpenseManager.loadFS EFile.absent).2 =
      ExpenseManager.loadFS EFile.absent :=
  ⟨rfl, rfl, rfl, rfl⟩

/-- Claim C9: every record returned by `ReminderManager.load` has all
three fields populated: the task and time are the stored ones and a
missing `completed` is normalized to false, in memory only — the backing
file state is unchanged by the load. -/
theorem reminder_load_normalizes_records (l : List StoredReminder) :
    ReminderManager.loadFS (RFile.content l) =
      (Except.ok (l.map normalizeReminder), RFile.content l) ∧
    ∀ r ∈ l, (normalizeReminder r).task = r.task ∧
      (normalizeReminder r).time = r.time ∧
      (normalizeReminder r).completed = r.completed.getD false :=
  ⟨rfl, fun _ _ => ⟨rfl, rfl, rfl⟩⟩

/-- Witness for claim C9 at a concrete stored list with a missing
`completed` field. -/
theorem reminder_load_normalizes_records_witness :
    ReminderManager.loadFS (RFile.content [StoredReminder.mk "a" "t" none]) =
      (Except.ok [Reminder.mk "a" "t" false],
       RFile.content [StoredReminder.mk "a" "t" none]) ∧
    (normalizeReminder (StoredReminder.mk "a" "t" none)).completed =
      (Option.none.getD false) :=
  ⟨(reminder_load_normalizes_records [StoredReminder.mk "a" "t" none]).1,
   ((reminder_load_normalizes_records [StoredReminder.mk "a" "t" none]).2
      (StoredReminder.mk "a" "t" none) (List.mem_singleton.mpr rfl)).2.2⟩

theorem foldBest_le (key : Expense → ℚ) (m : Expense) (rows : List Expense) :
    key m ≤ key (foldBest key m rows) ∧
      ∀ y ∈ rows, key y ≤ key (foldBest key m rows) := by
  induction rows generalizing m with
  | nil => exact ⟨le_refl _, fun y hy => absurd hy (List.not_mem_nil y)⟩
  | cons x t ih =>
    have hstep : foldBest key m (x :: t) =
        foldBest key (if key m < key x then x else m) t := rfl
    obtain ⟨h1, h2⟩ := ih (if key m < key x then x else m)
    have hm : key m ≤ key (if key m < key x then x else m) := by
      split
      · exact le_of_lt (by assumption)
      · exact le_refl _
    have hx : key x ≤ key (if key m < key x then x else m) := by
      split
      · exact le_refl _
      · exact le_of_not_lt (by assumption)
    rw [hstep]
    refine ⟨le_trans hm h1, ?_⟩
    intro y hy
    rcases List.mem_cons.mp hy with rfl | hy
    · exact le_trans hx h1
    · exact h2 y hy

theorem foldBest_first (key : Expense → ℚ) (m : Expense) (rows : List Expense) :
    ∃ pre post, m :: rows = pre ++ foldBest key m rows :: post ∧
      ∀ y ∈ pre, key y < key (foldBest key m rows) := by
  induction rows generalizing m with
  | nil => exact ⟨[], [], rfl, fun y hy => absurd hy (List.not_mem_nil y)⟩
  | cons x t ih =>
    have hstep : foldBest key m (x :: t) =
        foldBest key (if key m < key x then x else m) t := rfl
    by_cases hlt : key m < key x
    · obtain ⟨pre, post, heq, hpre⟩ := ih x
      rw [if_pos hlt] at hstep
      rw [hstep]
      refine ⟨m :: pre, post, ?_, ?_⟩
      · rw [List.cons_append]
        exact congrArg (List.cons m) heq
      · intro y hy
        rcases List.mem_cons.mp hy with rfl | hy
        · exact lt_of_lt_of_le hlt (foldBest_le key x t).1
        · exact hpre y hy
    · obtain ⟨pre, post, heq, hpre⟩ := ih m
      rw [if_neg hlt] at hstep
      rw [hstep]
      cases pre with
      | nil =>
        have hm : foldBest key m t = m := (List.cons.injEq _ _ _ _ ▸ heq).1.symm
        have hp : post = t := (List.cons.injEq _ _ _ _ ▸ heq).2.symm
        refine ⟨[], x :: t, ?_, fun y hy => absurd hy (List.not_mem_nil y)⟩
        rw [List.nil_append, hm]
      | cons p0 pre1 =>
        have h0 : m = p0 := (List.cons.injEq _ _ _ _ ▸ heq).1
        have h1 : t = pre1 ++ foldBest key m t :: post :=
          (List.cons.injEq _ _ _ _ ▸ heq).2
        refine ⟨m :: x :: pre1, post, ?_, ?_⟩
        · rw [List.cons_append, List.cons_append]
          exact congrArg (List.cons m) (congrArg (List.cons x) h1)
        · intro y hy
          rcases List.mem_cons.mp hy with rfl | hy
          · exact hpre y (h0 ▸ List.mem_cons_self p0 pre1)
          rcases List.mem_cons.mp hy with rfl | hy
          · have hym : key y ≤ key m := le_of_not_lt hlt
            exact lt_of_le_of_lt hym
              (hpre m (h0 ▸ List.mem_cons_self p0 pre1))
          · exact hpre y (List.mem_cons_of_mem p0 hy)

theorem find?_after_false_block {α : Type} (p : α → Bool) (pre post : List α)
    (m : α) (hm : p m = true) (hpre : ∀ y ∈ pre, p y = false) :
    (pre ++ m :: post).find? p = some m := by
  induction pre with
  | nil => exact List.find?_cons_of_pos post hm
  | cons a t ih =>
    have ha : ¬p a = true := by
      rw [hpre a (List.mem_cons_self a t)]
      exact Bool.false_ne_true
    rw [List.cons_append, List.find?_cons_of_neg _ ha]
    exact ih fun y hy => hpre y (List.mem_cons_of_mem a hy)

theorem find?_best (key : Expense → ℚ) (m : Expense) (rows : List Expense) :
    ((m :: rows).find? fun x =>
        (m :: rows).all fun y => decide (key y ≤ key x)) =
      some (foldBest key m rows) := by
  obtain ⟨pre, post, heq, hpre⟩ := foldBest_first key m rows
  have hM : ∀ z ∈ m :: rows, key z ≤ key (foldBest key m rows) := by
    intro z hz
    rcases List.mem_cons.mp hz with rfl | hz
    · exact (foldBest_le key z rows).1
    · exact (foldBest_le key m rows).2 z hz
  rw [heq]
  apply find?_after_false_block
  · simp only [List.all_eq_true, decide_eq_true_eq]
    intro y hy
    exact hM y (heq ▸ hy)
  · intro y hy
    have hylt := hpre y hy
    have hmem : foldBest key m rows ∈ pre ++ foldBest key m rows :: post :=
      List.mem_append_right pre (List.mem_cons_self _ _)
    refine (Bool.eq_false_iff).mpr fun hall => ?_
    rw [List.all_eq_true] at hall
    exact absurd (decide_eq_true_eq.mp (hall _ hmem)) (not_le.mpr hylt)

theorem idxmaxRow_eq_foldBest (r : Expense) (rs : List Expense) :
    idxmaxRow r rs = foldBest Expense.Amount r rs :=
  rfl

theorem idxminRow_eq_foldBest (r : Expense) (rs : List Expense) :
    idxminRow r rs = foldBest (fun e => -e.Amount) r rs := by
  induction rs generalizing r with
  | nil => rfl
  | cons x t ih =>
    show idxminRow (if x.Amount < r.Amount then x else r) t =
      foldBest (fun e => -e.Amount) (if -r.Amount < -x.Amount then x else r) t
    rw [show (if -r.Amount < -x.Amount then x else r) =
      (if x.Amount < r.Amount then x else r) from by simp only [neg_lt_neg_iff]]
    exact ih _

theorem specMaxRow_cons (r : Expense) (rs : List Expense) :
    specMaxRow (r :: rs) = some (idxmaxRow r rs) := by
  rw [idxmaxRow_eq_foldBest]
  exact find?_best Expense.Amount r rs

theorem specMinRow_cons (r : Expense) (rs : List Expense) :
    specMinRow (r :: rs) = some (idxminRow r rs) := by
  rw [idxminRow_eq_foldBest]
  have hpred : (fun (x : Expense) =>
        (r :: rs).all fun y => decide (x.Amount ≤ y.Amount)) =
      (fun (x : Expense) => (r :: rs).all fun y =>
        decide ((fun (e : Expense) => -e.Amount) y ≤
          (fun (e : Expense) => -e.Amount) x)) := by
    funext x
    refine congrArg (List.all (r :: rs)) ?_
    funext y
    exact (decide_eq_decide).mpr (neg_le_neg_iff).symm
  show ((r :: rs).find? fun x =>
    (r :: rs).all fun y => decide (x.Amount ≤ y.Amount)) = _
  rw [hpred]
  exact find?_best (fun e => -e.Amount) r rs

/-- Claim C2: `get_spending_insights` returns exactly one no-data line on
an empty table (no division is attempted), and otherwise returns, in this
fixed order: total spent (sum of Amount, two decimals), average per
expense (mean, two decimals), count of rows, the first row with maximum
Amount formatted with its item and two-decimal amount, and the first row
with minimum Amount under the same tie rule; a first maximal and a first
minimal row always exist for a nonempty table. -/
theorem spending_insights_spec (s : EFile) :
    ((ExpenseManager.load s).rows = [] →
      ExpenseManager.get_spending_insights s = ["No expenses yet to analyze"]) ∧
    ((ExpenseManager.load s).rows ≠ [] →
      (specMaxRow (ExpenseManager.load s).rows).isSome = true ∧
      (specMinRow (ExpenseManager.load s).rows).isSome = true) ∧
    (∀ mx mn, specMaxRow (ExpenseManager.load s).rows = some mx →
      specMinRow (ExpenseManager.load s).rows = some mn →
      ExpenseManager.get_spending_insights s =
        ["💰 Total spent: ₹" ++
           fmt2 (((ExpenseManager.load s).rows.map Expense.Amount).sum),
         "📊 Average per expense: ₹" ++
           fmt2 ((((ExpenseManager.load s).rows.map Expense.Amount).sum) /
             ((ExpenseManager.load s).rows.length : ℚ)),
         "📝 Total expenses: " ++ toString (ExpenseManager.load s).rows.length,
         "🔥 Most expensive: " ++ mx.Item ++ " - ₹" ++ fmt2 mx.Amount,
         "💸 Cheapest: " ++ mn.Item ++ " - ₹" ++ fmt2 mn.Amount]) := by
  rcases h : (ExpenseManager.load s).rows with _ | ⟨r, rs⟩
  · refine ⟨fun _ => ?_, fun hne => absurd rfl hne, fun mx mn hmx hmn => ?_⟩
    · simp [ExpenseManager.get_spending_insights, h]
    · simp [specMaxRow] at hmx
  · refine ⟨fun h0 => absurd h0 (List.cons_ne_nil r rs), fun _ => ?_,
      fun mx mn hmx hmn => ?_⟩
    · rw [specMaxRow_cons, specMinRow_cons]
      exact ⟨rfl, rfl⟩
    · rw [specMaxRow_cons] at hmx
      rw [specMinRow_cons] at hmn
      have hmx1 := Option.some.inj hmx
      have hmn1 := Option.some.inj hmn
      simp only [ExpenseManager.get_spending_insights, h, ← hmx1, ← hmn1]

/-- Witness for claim C2 on the specification's example table: the five
lines with their concrete values, including the tie rules and two-decimal
formatting. -/
theorem spending_insights_spec_witness :
    ExpenseManager.get_spending_insights
        (EFile.present
          [Expense.mk "Tea" 20 "2024-01-01",
           Expense.mk "Lunch" 150 "2024-01-02"]) =
      ["💰 Total spent: ₹170.00", "📊 Average per expense: ₹85.00",
       "📝 Total expenses: 2", "🔥 Most expensive: Lunch - ₹150.00",
       "💸 Cheapest: Tea - ₹20.00"] := by
  have h := (spending_insights_spec
    (EFile.present
      [Expense.mk "Tea" 20 "2024-01-01",
       Expense.mk "Lunch" 150 "2024-01-02"])).2.2
    (Expense.mk "Lunch" 150 "2024-01-02") (Expense.mk "Tea" 20 "2024-01-01")
    (by decide) (by decide)
  rw [h]
  decide

/-- Claim C5: for every store state, `ExpenseManager.add` with a
non-numeric amount fails with the invalid-amount error and performs no
write — the backing file is unchanged after the failed call. -/
theorem expense_add_invalid_amount_no_write (s : EFile) (item : String)
    (amount : PyVal) (date_str : String) (h : pyFloat amount = none) :
    ExpenseManager.add s item amount date_str =
      (Except.error ExpenseAddError.invalidAmount, s) := by
  unfold ExpenseManager.add
  rw [h]

/-- Witness for claim C5: adding with the non-numeric amount string
"twelve" errors and leaves a concrete file state unchanged. -/
theorem expense_add_invalid_amount_no_write_witness :
    ExpenseManager.add (EFile.present [Expense.mk "Tea" 20 "2024-01-01"])
        "Lunch" (PyVal.str "twelve") "2024-01-02" =
      (Except.error ExpenseAddError.invalidAmount,
       EFile.present [Expense.mk "Tea" 20 "2024-01-01"]) :=
  expense_add_invalid_amount_no_write _ _ _ _ (by decide)

/-- Claim C10 (refuted by the Morning-Brief script, confirmed for the
dashboard): on a non-200 weather response the dashboard's weather section
shows the "City not found" fallback and no exception escapes, but the
Morning-Brief script prints its fallback line and then terminates with an
uncaught NameError, because `condition` is assigned only in the success
branch yet is read unconditionally afterwards — it does not continue or
terminate normally as the claim states. -/
theorem weather_non200_prints_fallback_then_crashes (r : OwmResponse)
    (h : r.codIs200 = false) :
    morningBriefWeather r =
      ([BriefLine.cityNotFound],
       Except.error (PyRunError.nameError "condition")) ∧
    ∀ k, show_weather_news_weather_part (some k) (Except.ok r) =
      [UiEvent.errorMsg "City not found"] := by
  constructor
  · simp [morningBriefWeather, h]
  · intro k
    simp [show_weather_news_weather_part, h]

/-- Witness for claim C10 at a concrete non-200 response. -/
theorem weather_non200_prints_fallback_then_crashes_witness :
    morningBriefWeather (OwmResponse.mk false 0 0 "" "") =
      ([BriefLine.cityNotFound],
       Except.error (PyRunError.nameError "condition")) ∧
    show_weather_news_weather_part (some "key")
        (Except.ok (OwmResponse.mk false 0 0 "" "")) =
      [UiEvent.errorMsg "City not found"] :=
  ⟨(weather_non200_prints_fallback_then_crashes
      (OwmResponse.mk false 0 0 "" "") rfl).1,
   (weather_non200_prints_fallback_then_crashes
      (OwmResponse.mk false 0 0 "" "") rfl).2 "key"⟩

end Proofs
